import Mathlib

/-!
Shallow embedding of the analytical core of
`src/integrated_gifted_dashboard_recommendations.py` (the RateAnalyzer module):
`_safe_rate`, `selection_rate`, `group_rates`, `disparity_table`, `pct`.

Modelling conventions:
* A cell of an outcome column is a `Val`: a numeric value (floats are idealised
  as rationals), a missing value (pandas `NaN`), or a non-coercible value
  (a string such as "x" on which `Series.astype(float)` raises).
* A cell of the grouping column is a `GVal`: a string, or the missing value
  `null` (pandas `NaN`).  `groupby(dropna=False)`, `value_counts(dropna=False)`
  and `merge` all treat two missing keys as the same group, which the
  structural equality of `GVal` reflects; the elementwise comparison
  `series == reference` instead follows IEEE semantics where `NaN == NaN` is
  false, modelled by `pyEq`.
* A dataset is a `List Row`, a row carrying the grouping cell and the outcome
  cell of the two columns the analyzer reads.
* `np.nansum` skips `NaN` entries; `Series.astype(float)` raises as soon as
  one entry is non-coercible, and `_safe_rate` turns that exception into the
  `NaN` sentinel, modelled by `Option ℚ` with `none` for `NaN`.
* `DataFrame.sort_values(by, ascending=False)` (pandas `nargsort`) sorts the
  non-`NaN` keys descending and places `NaN` keys last
  (`na_position="last"`), in their incoming order.  The model's
  `insertionSort` reproduces the tie order of the incoming keys; numpy's
  default quicksort (introsort) guarantees that order only in its
  small-array insertion-sort regime (arrays of at most 15 elements), so the
  order theorems below that speak about ties carry that bound as a
  hypothesis, while plain sortedness (descending, `NaN` last) needs no such
  bound.
* `group_rates` raises on an empty dataframe: a groupby with zero groups
  makes `apply` return an empty `DataFrame`, and
  `DataFrame.reset_index(name="rate")` is invalid (`name` exists only on
  `Series.reset_index`), a `TypeError`.  `group_rates` and its caller
  `disparity_table` therefore return `Option (List _)`, with `none` for the
  raised exception.
-/

namespace Dashboard

/-- A cell of a numeric (outcome) column: a number, a missing value (`NaN`),
or a value on which coercion to float raises. -/
inductive Val where
  | num (q : ℚ)
  | nan
  | nonnum
deriving DecidableEq, Repr

/-- A cell of the grouping column: a string, or missing (`NaN`). -/
inductive GVal where
  | str (s : String)
  | null
deriving DecidableEq, Repr

/-- One row of the dataset, restricted to the two columns the analyzer
reads: the grouping cell and the outcome cell. -/
structure Row where
  group : GVal
  outcome : Val
deriving DecidableEq, Repr

/-- `Series.astype(float)` succeeds on this cell. -/
def Val.coerces (v : Val) : Bool :=
  match v with
  | .nonnum => false
  | _ => true

/-- This cell is an actual number (not missing, not non-coercible). -/
def Val.isNumeric (v : Val) : Bool :=
  match v with
  | .num _ => true
  | _ => false

/-- The contribution of a cell to `np.nansum`: its numeric value, with
missing values skipped (contributing zero). -/
def Val.numOr0 (v : Val) : ℚ :=
  match v with
  | .num q => q
  | _ => 0

/-- `float(np.nansum(series.astype(float)))` once coercion has succeeded. -/
def nansum (vs : List Val) : ℚ := (vs.map Val.numOr0).sum

/-- `series.astype(float)` raises unless every cell coerces. -/
def astypeOk (vs : List Val) : Bool := vs.all Val.coerces

/-- `_safe_rate(numer, denom)`: numerator and denominator are `nansum`s of the
coerced series; the quotient is returned when the denominator is positive,
and the `NaN` sentinel (`none`) when it is not or when coercion of either
series raises. -/
def safe_rate (numer denom : List Val) : Option ℚ :=
  if astypeOk numer && astypeOk denom then
    let d := nansum denom
    if 0 < d then some (nansum numer / d) else none
  else none

/-- `selection_rate(df, outcome_col)`: `_safe_rate` of the outcome column
against a column of ones of length `len(df)`. -/
def selection_rate (df : List Row) : Option ℚ :=
  safe_rate (df.map Row.outcome) (df.map fun _ => Val.num 1)

/-- The ascending order `groupby(sort=True)` uses on group keys: strings in
lexicographic (code-point) order, the missing key last.  Strings are compared
through their character lists, which is the same code-point lexicographic
order Python uses. -/
def keyLe (a b : GVal) : Prop :=
  match a, b with
  | .str s, .str t => s.data ≤ t.data
  | .null, .str _ => False
  | .str _, .null => True
  | .null, .null => True

instance : DecidableRel keyLe := fun a b =>
  match a, b with
  | .str s, .str t => inferInstanceAs (Decidable (s.data ≤ t.data))
  | .null, .str _ => inferInstanceAs (Decidable False)
  | .str _, .null => inferInstanceAs (Decidable True)
  | .null, .null => inferInstanceAs (Decidable True)

/-- The elementwise comparison `series == reference`: `NaN` compares unequal
to everything, including itself. -/
def pyEq (a b : GVal) : Bool :=
  match a, b with
  | .str s, .str t => s == t
  | _, _ => false

/-- The distinct group keys in ascending key order, as produced by
`df.groupby(group_col, dropna=False)` (missing keys form their own group). -/
def sortedKeys (df : List Row) : List GVal :=
  ((df.map Row.group).dedup).insertionSort keyLe

/-- One row of the `group_rates` result: group key, its selection rate
(`none` = `NaN`), and the group size `n`. -/
structure GroupRate where
  group : GVal
  rate : Option ℚ
  n : ℕ
deriving DecidableEq, Repr

/-- The descending comparison `sort_values("rate", ascending=False)` applies
to the rows whose rate is defined. -/
def rged (a b : GroupRate) : Prop := b.rate.getD 0 ≤ a.rate.getD 0

instance : DecidableRel rged := fun a b =>
  inferInstanceAs (Decidable (b.rate.getD 0 ≤ a.rate.getD 0))

/-- The `group_rates` row of one group key `k`: `selection_rate` restricted
to the rows of that group (`groupby.apply`), and `n` the group's row count
(`value_counts(dropna=False)`, merged back on the key, missing keys
matching). -/
def groupRateOf (df : List Row) (k : GVal) : GroupRate :=
  { group := k
    rate := selection_rate (df.filter fun r => r.group == k)
    n := (df.filter fun r => r.group == k).length }

/-- `group_rates(df, group_col, outcome_col)`: per-group selection rate and
size, then `sort_values("rate", ascending=False)`: defined rates descending,
`NaN` rates last in incoming order.  On an empty dataframe the zero-group
`groupby.apply` returns an empty `DataFrame` and
`DataFrame.reset_index(name="rate")` raises `TypeError` (`none` here).  The
`insertionSort` keeps the incoming (key-ascending) order among rate ties;
the source guarantees that only while numpy's default quicksort stays in
its insertion-sort regime (at most 15 defined-rate rows), so tie-order
theorems assume that bound. -/
def group_rates (df : List Row) : Option (List GroupRate) :=
  if df.isEmpty then none
  else
    let base := (sortedKeys df).map (groupRateOf df)
    some ((base.filter fun g => g.rate.isSome).insertionSort rged ++
      base.filter fun g => !g.rate.isSome)

/-- One row of the `disparity_table` result. -/
structure DispRow where
  group : GVal
  rate : Option ℚ
  n : ℕ
  rate_diff_vs_overall : Option ℚ
  risk_ratio_vs_overall : Option ℚ
  rate_vs_ref : Option ℚ
  reference_group : Option GVal
deriving DecidableEq, Repr

/-- `disparity_table(df, group_col, outcome_col, reference=None)`.
The reference defaults to the first (highest-rate) row's key when the table
is nonempty; the reference rate is the rate of the first row whose key
compares `==` to the reference, and the `IndexError` of an absent reference
(or a missing-valued one, which `==` never matches) is swallowed into a
fallback to the overall rate.  The ratio columns follow the guard
`x and not np.isnan(x) and x > 0`, i.e. they are `NaN` unless the
denominator is defined and positive; subtraction propagates `NaN`.  The
`TypeError` that `group_rates` raises on an empty dataframe propagates out
of `disparity_table` (`none` here). -/
def disparity_table (df : List Row) (reference : Option GVal := none) :
    Option (List DispRow) :=
  match group_rates df with
  | none => none
  | some rates =>
  let overall := selection_rate df
  let ref : Option GVal :=
    match reference with
    | some r => some r
    | none =>
      match rates with
      | g :: _ => some g.group
      | [] => none
  let ref_rate : Option ℚ :=
    match ref with
    | some r =>
      match rates.filter fun g => pyEq g.group r with
      | g :: _ => g.rate
      | [] => overall
    | none => overall
  some <| rates.map fun g =>
    { group := g.group
      rate := g.rate
      n := g.n
      rate_diff_vs_overall :=
        match g.rate, overall with
        | some x, some o => some (x - o)
        | _, _ => none
      risk_ratio_vs_overall :=
        match overall with
        | some o => if 0 < o then g.rate.map (· / o) else none
        | none => none
      rate_vs_ref :=
        match ref_rate with
        | some rr => if 0 < rr then g.rate.map (· / rr) else none
        | none => none
      reference_group := ref }

/-- Round to the nearest integer, ties to even, as Python float formatting
does on the exact value. -/
def rhe (q : ℚ) : ℤ :=
  if q - ⌊q⌋ < 1/2 then ⌊q⌋
  else if 1/2 < q - ⌊q⌋ then ⌊q⌋ + 1
  else if ⌊q⌋ % 2 = 0 then ⌊q⌋ else ⌊q⌋ + 1

/-- Render `n` tenths of a percent as a one-decimal percentage string. -/
def pctRender (n : ℤ) : String :=
  (if n < 0 then "-" else "") ++
    toString (n.natAbs / 10) ++ "." ++ toString (n.natAbs % 10) ++ "%"

/-- `pct(x)`: the placeholder `"-"` for `NaN`, otherwise
`f"{x*100:0.1f}%"` — the rate as a percentage with one decimal place. -/
def pct (x : Option ℚ) : String :=
  match x with
  | none => "-"
  | some q => pctRender (rhe (1000 * q))

/-- The strict version of the groupby key order. -/
def keyLt (a b : GVal) : Prop := keyLe a b ∧ a ≠ b

/-- A group's rate with `NaN` mapped to `⊥`, the display order the spec asks
for ("undefined < any real rate"). -/
def rateW (g : GroupRate) : WithBot ℚ :=
  match g.rate with
  | some q => (q : WithBot ℚ)
  | none => ⊥

/-- The order `group_rates` actually emits: strictly decreasing rate, or a
rate tie broken by ascending group key (`NaN` rates, being `⊥`, land last,
tied among themselves by key order). -/
def dispOrder (a b : GroupRate) : Prop :=
  rateW b < rateW a ∨ (a.rate = b.rate ∧ keyLt a.group b.group)

/-- Shorthand for building a row with a string group key and a numeric
outcome. -/
def mkRow (g : String) (q : ℚ) : Row :=
  { group := GVal.str g, outcome := Val.num q }

/-- The spec's worked example: 10 rows, gender 6 F / 4 M, outcome
`qualified` = 1 for 3 F rows and 1 M row. -/
def exampleDF : List Row :=
  [mkRow "F" 1, mkRow "F" 1, mkRow "F" 1, mkRow "F" 0, mkRow "F" 0, mkRow "F" 0,
   mkRow "M" 1, mkRow "M" 0, mkRow "M" 0, mkRow "M" 0]

/-- One row whose outcome is missing (`NaN`): the outcome column has no
numeric value, yet coerces fine. -/
def dfAllNanOutcome : List Row :=
  [{ group := GVal.str "A", outcome := Val.nan }]

/-- Two rows, one numeric outcome and one non-coercible outcome. -/
def dfMixedOutcome : List Row :=
  [{ group := GVal.str "A", outcome := Val.num 1 },
   { group := GVal.str "A", outcome := Val.nonnum }]

/-- Four rows: group B encountered first, then group A, with equal rates
1/2 in both groups. -/
def dfTiedRates : List Row :=
  [mkRow "B" 1, mkRow "B" 0, mkRow "A" 1, mkRow "A" 0]

/-- A single row whose group has selection rate 0. -/
def dfZeroRate : List Row := [mkRow "A" 0]

/-- Two rows whose outcome column contains a non-coercible value, so the
overall rate is `NaN`. -/
def dfUndefOverall : List Row :=
  [{ group := GVal.str "A", outcome := Val.nonnum },
   { group := GVal.str "B", outcome := Val.num 1 }]

/-- Three rows whose highest-rate group has a missing group key: the
missing-key group (rate 1) outranks group A (rate 1/2). -/
def dfNullTop : List Row :=
  [{ group := GVal.null, outcome := Val.num 1 }, mkRow "A" 1, mkRow "A" 0]

/-! ## General lemmas about the embedding -/

theorem astypeOk_ones (df : List Row) :
    astypeOk (df.map fun _ => Val.num 1) = true := by
  induction df with
  | nil => rfl
  | cons r t ih => simp [astypeOk, Val.coerces]

theorem nansum_ones (df : List Row) :
    nansum (df.map fun _ => Val.num 1) = df.length := by
  induction df with
  | nil => rfl
  | cons r t ih =>
    simp only [List.map_cons, nansum, Val.numOr0, List.sum_cons, List.length_cons]
    simp only [nansum, Val.numOr0] at ih
    rw [ih]
    push_cast
    ring

/-- Normal form of `selection_rate`: the outcome column must coerce, the
denominator is the row count, and the numerator is the `NaN`-skipping sum of
the outcome column. -/
theorem selection_rate_eq (df : List Row) :
    selection_rate df =
      if astypeOk (df.map Row.outcome) then
        if 0 < df.length then
          some (nansum (df.map Row.outcome) / df.length)
        else none
      else none := by
  unfold selection_rate safe_rate
  rw [astypeOk_ones, nansum_ones, Bool.and_true]
  rcases h : astypeOk (df.map Row.outcome) with _ | _
  · simp [h]
  · simp [h, Nat.cast_pos]

theorem coerces_eq_false_iff (v : Val) :
    Val.coerces v = false ↔ v = Val.nonnum := by
  cases v <;> simp [Val.coerces]

theorem astypeOk_eq_false_iff (vs : List Val) :
    astypeOk vs = false ↔ ∃ v ∈ vs, v = Val.nonnum := by
  simp [astypeOk, List.all_eq_false, coerces_eq_false_iff]

theorem astypeOk_eq_true_iff (vs : List Val) :
    astypeOk vs = true ↔ ∀ v ∈ vs, v ≠ Val.nonnum := by
  simp [astypeOk, List.all_eq_true]
  constructor
  · intro h v hv hne
    have := h v hv
    rw [hne] at this
    exact absurd this (by simp [Val.coerces])
  · intro h v hv
    rcases hc : Val.coerces v with _ | _
    · exact absurd ((coerces_eq_false_iff v).mp hc) (h v hv)
    · rfl

theorem nansum_bounds (vs : List Val)
    (h : ∀ v ∈ vs, v = Val.nan ∨ v = Val.num 0 ∨ v = Val.num 1) :
    0 ≤ nansum vs ∧ nansum vs ≤ vs.length := by
  induction vs with
  | nil => simp [nansum]
  | cons v t ih =>
    obtain ⟨h1, h2⟩ := ih fun w hw => h w (List.mem_cons_of_mem _ hw)
    have hv := h v (List.mem_cons_self _ _)
    have hlen : ((v :: t).length : ℚ) = (t.length : ℚ) + 1 := by
      push_cast [List.length_cons]; ring
    have hsum : nansum (v :: t) = Val.numOr0 v + nansum t := by
      simp [nansum]
    rcases hv with hv | hv | hv <;> subst hv <;>
      rw [hsum, hlen] <;> simp only [Val.numOr0] <;>
      exact ⟨by linarith, by linarith⟩

theorem astypeOk_perm {v w : List Val} (h : v.Perm w) :
    astypeOk v = astypeOk w := by
  rcases hv : astypeOk v with _ | _
  · rcases hw : astypeOk w with _ | _
    · rfl
    · obtain ⟨x, hx, hxn⟩ := (astypeOk_eq_false_iff v).mp hv
      exact absurd ((astypeOk_eq_true_iff w).mp hw x (h.mem_iff.mp hx)) (by simp [hxn])
  · rcases hw : astypeOk w with _ | _
    · obtain ⟨x, hx, hxn⟩ := (astypeOk_eq_false_iff w).mp hw
      exact absurd ((astypeOk_eq_true_iff v).mp hv x (h.mem_iff.mpr hx)) (by simp [hxn])
    · rfl
/-! ## Evaluation lemmas for the concrete datasets -/

theorem pyEq_null_right (v : GVal) : pyEq v GVal.null = false := by
  cases v <;> rfl

theorem group_rates_of_ne_nil (df : List Row) (h : df ≠ []) :
    group_rates df =
      some (((((sortedKeys df).map (groupRateOf df)).filter fun g =>
          g.rate.isSome).insertionSort rged) ++
        ((sortedKeys df).map (groupRateOf df)).filter fun g => !g.rate.isSome) := by
  cases df with
  | nil => exact absurd rfl h
  | cons a t => rfl

theorem exampleDF_sortedKeys :
    sortedKeys exampleDF = [GVal.str "F", GVal.str "M"] := by decide

theorem exampleDF_filter_F :
    exampleDF.filter (fun r => r.group == GVal.str "F") =
      [mkRow "F" 1, mkRow "F" 1, mkRow "F" 1,
       mkRow "F" 0, mkRow "F" 0, mkRow "F" 0] := by decide

theorem exampleDF_filter_M :
    exampleDF.filter (fun r => r.group == GVal.str "M") =
      [mkRow "M" 1, mkRow "M" 0, mkRow "M" 0, mkRow "M" 0] := by decide

theorem exampleDF_rate_F :
    selection_rate [mkRow "F" 1, mkRow "F" 1, mkRow "F" 1,
      mkRow "F" 0, mkRow "F" 0, mkRow "F" 0] = some (1/2) := by
  rw [selection_rate_eq]
  norm_num [astypeOk, nansum, mkRow, Val.coerces, Val.numOr0]

theorem exampleDF_rate_M :
    selection_rate [mkRow "M" 1, mkRow "M" 0, mkRow "M" 0, mkRow "M" 0] =
      some (1/4) := by
  rw [selection_rate_eq]
  norm_num [astypeOk, nansum, mkRow, Val.coerces, Val.numOr0]

theorem exampleDF_rate_overall : selection_rate exampleDF = some (2/5) := by
  rw [selection_rate_eq]
  norm_num [astypeOk, nansum, exampleDF, mkRow, Val.coerces, Val.numOr0]

theorem exampleDF_group_rates :
    group_rates exampleDF =
      some
      [{ group := GVal.str "F", rate := some (1/2), n := 6 },
            { group := GVal.str "M", rate := some (1/4), n := 4 }] := by
  rw [group_rates_of_ne_nil _ (by decide)]
  simp only [groupRateOf, exampleDF_sortedKeys, List.map_cons,
    List.map_nil, exampleDF_filter_F, exampleDF_filter_M, exampleDF_rate_F,
    exampleDF_rate_M]
  norm_num [List.insertionSort, List.orderedInsert, rged]

theorem exampleDF_disparity :
    disparity_table exampleDF (some (GVal.str "F")) =
      some
      [{ group := GVal.str "F", rate := some (1/2), n := 6,
         rate_diff_vs_overall := some (1/10),
         risk_ratio_vs_overall := some (5/4),
         rate_vs_ref := some 1,
         reference_group := some (GVal.str "F") },
       { group := GVal.str "M", rate := some (1/4), n := 4,
         rate_diff_vs_overall := some (-(3/20)),
         risk_ratio_vs_overall := some (5/8),
         rate_vs_ref := some (1/2),
         reference_group := some (GVal.str "F") }] := by
  simp only [disparity_table, exampleDF_group_rates, exampleDF_rate_overall]
  norm_num [pyEq, List.filter, Option.map]

theorem exampleDF_disparity_default :
    disparity_table exampleDF none =
      some
      [{ group := GVal.str "F", rate := some (1/2), n := 6,
         rate_diff_vs_overall := some (1/10),
         risk_ratio_vs_overall := some (5/4),
         rate_vs_ref := some 1,
         reference_group := some (GVal.str "F") },
       { group := GVal.str "M", rate := some (1/4), n := 4,
         rate_diff_vs_overall := some (-(3/20)),
         risk_ratio_vs_overall := some (5/8),
         rate_vs_ref := some (1/2),
         reference_group := some (GVal.str "F") }] := by
  simp only [disparity_table, exampleDF_group_rates, exampleDF_rate_overall]
  norm_num [pyEq, List.filter, Option.map]

theorem dfTiedRates_sortedKeys :
    sortedKeys dfTiedRates = [GVal.str "A", GVal.str "B"] := by decide

theorem dfTiedRates_filter_A :
    dfTiedRates.filter (fun r => r.group == GVal.str "A") =
      [mkRow "A" 1, mkRow "A" 0] := by decide

theorem dfTiedRates_filter_B :
    dfTiedRates.filter (fun r => r.group == GVal.str "B") =
      [mkRow "B" 1, mkRow "B" 0] := by decide

theorem dfTiedRates_rate_A :
    selection_rate [mkRow "A" 1, mkRow "A" 0] = some (1/2) := by
  rw [selection_rate_eq]
  norm_num [astypeOk, nansum, mkRow, Val.coerces, Val.numOr0]

theorem dfTiedRates_rate_B :
    selection_rate [mkRow "B" 1, mkRow "B" 0] = some (1/2) := by
  rw [selection_rate_eq]
  norm_num [astypeOk, nansum, mkRow, Val.coerces, Val.numOr0]

theorem dfTiedRates_group_rates :
    group_rates dfTiedRates =
      some
      [{ group := GVal.str "A", rate := some (1/2), n := 2 },
            { group := GVal.str "B", rate := some (1/2), n := 2 }] := by
  rw [group_rates_of_ne_nil _ (by decide)]
  simp only [groupRateOf, dfTiedRates_sortedKeys, List.map_cons,
    List.map_nil, dfTiedRates_filter_A, dfTiedRates_filter_B,
    dfTiedRates_rate_A, dfTiedRates_rate_B]
  norm_num [List.insertionSort, List.orderedInsert, rged]

theorem dfZeroRate_rate : selection_rate dfZeroRate = some 0 := by
  rw [selection_rate_eq]
  norm_num [astypeOk, nansum, dfZeroRate, mkRow, Val.coerces, Val.numOr0]

theorem dfZeroRate_group_rates :
    group_rates dfZeroRate =
      some
      [{ group := GVal.str "A", rate := some 0, n := 1 }] := by
  have hf : dfZeroRate.filter (fun r => r.group == GVal.str "A") = dfZeroRate := by
    decide
  have hk : sortedKeys dfZeroRate = [GVal.str "A"] := by decide
  rw [group_rates_of_ne_nil _ (by decide)]
  simp only [groupRateOf, hk, List.map_cons, List.map_nil, hf, dfZeroRate_rate]
  norm_num [List.insertionSort, List.orderedInsert, rged, dfZeroRate]

theorem dfZeroRate_disparity :
    disparity_table dfZeroRate none =
      some
      [{ group := GVal.str "A", rate := some 0, n := 1,
         rate_diff_vs_overall := some 0,
         risk_ratio_vs_overall := none,
         rate_vs_ref := none,
         reference_group := some (GVal.str "A") }] := by
  simp only [disparity_table, dfZeroRate_group_rates, dfZeroRate_rate]
  norm_num [pyEq, List.filter, Option.map]

theorem dfUndefOverall_rate : selection_rate dfUndefOverall = none := by
  rw [selection_rate_eq]
  norm_num [astypeOk, nansum, dfUndefOverall, Val.coerces, Val.numOr0]

theorem dfUndefOverall_group_rates :
    group_rates dfUndefOverall =
      some
      [{ group := GVal.str "B", rate := some 1, n := 1 },
            { group := GVal.str "A", rate := none, n := 1 }] := by
  have hk : sortedKeys dfUndefOverall = [GVal.str "A", GVal.str "B"] := by decide
  have hfA : dfUndefOverall.filter (fun r => r.group == GVal.str "A") =
      [{ group := GVal.str "A", outcome := Val.nonnum }] := by decide
  have hfB : dfUndefOverall.filter (fun r => r.group == GVal.str "B") =
      [{ group := GVal.str "B", outcome := Val.num 1 }] := by decide
  have hrA : selection_rate [({ group := GVal.str "A", outcome := Val.nonnum } : Row)] =
      none := by
    rw [selection_rate_eq]
    norm_num [astypeOk, nansum, Val.coerces, Val.numOr0]
  have hrB : selection_rate [({ group := GVal.str "B", outcome := Val.num 1 } : Row)] =
      some 1 := by
    rw [selection_rate_eq]
    norm_num [astypeOk, nansum, Val.coerces, Val.numOr0]
  rw [group_rates_of_ne_nil _ (by decide)]
  simp only [groupRateOf, hk, List.map_cons, List.map_nil, hfA, hfB, hrA, hrB]
  norm_num [List.insertionSort, List.orderedInsert, rged]

theorem dfUndefOverall_disparity :
    disparity_table dfUndefOverall none =
      some
      [{ group := GVal.str "B", rate := some 1, n := 1,
         rate_diff_vs_overall := none,
         risk_ratio_vs_overall := none,
         rate_vs_ref := some 1,
         reference_group := some (GVal.str "B") },
       { group := GVal.str "A", rate := none, n := 1,
         rate_diff_vs_overall := none,
         risk_ratio_vs_overall := none,
         rate_vs_ref := none,
         reference_group := some (GVal.str "B") }] := by
  simp only [disparity_table, dfUndefOverall_group_rates, dfUndefOverall_rate]
  norm_num [pyEq, List.filter, Option.map]

theorem dfNullTop_sortedKeys :
    sortedKeys dfNullTop = [GVal.str "A", GVal.null] := by decide

theorem dfNullTop_filter_A :
    dfNullTop.filter (fun r => r.group == GVal.str "A") =
      [mkRow "A" 1, mkRow "A" 0] := by decide

theorem dfNullTop_filter_null :
    dfNullTop.filter (fun r => r.group == GVal.null) =
      [{ group := GVal.null, outcome := Val.num 1 }] := by decide

theorem dfNullTop_rate_null :
    selection_rate [({ group := GVal.null, outcome := Val.num 1 } : Row)] =
      some 1 := by
  rw [selection_rate_eq]
  norm_num [astypeOk, nansum, Val.coerces, Val.numOr0]

theorem dfNullTop_rate_overall : selection_rate dfNullTop = some (2/3) := by
  rw [selection_rate_eq]
  norm_num [astypeOk, nansum, dfNullTop, mkRow, Val.coerces, Val.numOr0]

theorem dfNullTop_group_rates :
    group_rates dfNullTop =
      some
      [{ group := GVal.null, rate := some 1, n := 1 },
            { group := GVal.str "A", rate := some (1/2), n := 2 }] := by
  rw [group_rates_of_ne_nil _ (by decide)]
  simp only [groupRateOf, dfNullTop_sortedKeys, List.map_cons, List.map_nil,
    dfNullTop_filter_A, dfNullTop_filter_null, dfTiedRates_rate_A,
    dfNullTop_rate_null]
  norm_num [List.insertionSort, List.orderedInsert, rged]

theorem dfNullTop_disparity :
    disparity_table dfNullTop none =
      some
      [{ group := GVal.null, rate := some 1, n := 1,
         rate_diff_vs_overall := some (1/3),
         risk_ratio_vs_overall := some (3/2),
         rate_vs_ref := some (3/2),
         reference_group := some GVal.null },
       { group := GVal.str "A", rate := some (1/2), n := 2,
         rate_diff_vs_overall := some (-(1/6)),
         risk_ratio_vs_overall := some (3/4),
         rate_vs_ref := some (3/4),
         reference_group := some GVal.null }] := by
  simp only [disparity_table, dfNullTop_group_rates, dfNullTop_rate_overall]
  norm_num [pyEq, List.filter, Option.map]

/-! ## Sort-order machinery for group_rates -/

theorem rateW_getD {g : GroupRate} (h : g.rate.isSome = true) :
    rateW g = ((g.rate.getD 0 : ℚ) : WithBot ℚ) := by
  obtain ⟨q, hq⟩ := Option.isSome_iff_exists.mp h
  simp [rateW, hq]

theorem rate_eq_of_getD {a b : GroupRate} (ha : a.rate.isSome = true)
    (hb : b.rate.isSome = true) (h : a.rate.getD 0 = b.rate.getD 0) :
    a.rate = b.rate := by
  obtain ⟨x, hx⟩ := Option.isSome_iff_exists.mp ha
  obtain ⟨y, hy⟩ := Option.isSome_iff_exists.mp hb
  rw [hx, hy]
  rw [hx, hy] at h
  simp at h
  rw [h]

theorem dispOrder_of_rged {a b : GroupRate} (ha : a.rate.isSome = true)
    (hb : b.rate.isSome = true) (hk : keyLt a.group b.group) (hab : rged a b) :
    dispOrder a b := by
  rcases lt_or_eq_of_le hab with hlt | heq
  · exact Or.inl (by rw [rateW_getD ha, rateW_getD hb]; exact_mod_cast hlt)
  · exact Or.inr ⟨rate_eq_of_getD ha hb heq.symm, hk⟩

theorem rateW_lt_of_not_rged {a b : GroupRate} (hb : b.rate.isSome = true)
    (ha : a.rate.isSome = true) (hab : ¬ rged a b) : rateW a < rateW b := by
  rw [rateW_getD ha, rateW_getD hb]
  exact_mod_cast lt_of_not_le hab

theorem dispOrder_through {a b c : GroupRate} (ha : a.rate.isSome = true)
    (hb : b.rate.isSome = true) (hc : c.rate.isSome = true)
    (hab : rged a b) (hbc : dispOrder b c) (hk : keyLt a.group c.group) :
    dispOrder a c := by
  have hba : rateW b ≤ rateW a := by
    rw [rateW_getD ha, rateW_getD hb]; exact_mod_cast hab
  rcases hbc with hlt | ⟨heq, _⟩
  · exact Or.inl (lt_of_lt_of_le hlt hba)
  · have hcb : rateW c = rateW b := by simp [rateW, heq]
    rcases lt_or_eq_of_le (hcb ▸ hba) with hlt | heq2
    · exact Or.inl hlt
    · refine Or.inr ⟨?_, hk⟩
      have : rateW a = rateW c := heq2.symm
      obtain ⟨x, hx⟩ := Option.isSome_iff_exists.mp ha
      obtain ⟨z, hz⟩ := Option.isSome_iff_exists.mp hc
      rw [hx, hz]
      rw [rateW, rateW, hx, hz] at this
      simp at this
      rw [this]

theorem dispOrder_orderedInsert (a : GroupRate) (m : List GroupRate)
    (ha : a.rate.isSome = true) (hm : ∀ b ∈ m, b.rate.isSome = true)
    (hkey : ∀ b ∈ m, keyLt a.group b.group)
    (hp : m.Pairwise dispOrder) :
    (List.orderedInsert rged a m).Pairwise dispOrder := by
  induction m with
  | nil => simp
  | cons b t ih =>
    obtain ⟨hbt, hpt⟩ := List.pairwise_cons.mp hp
    have hbS : b.rate.isSome = true := hm b (List.mem_cons_self _ _)
    have htS : ∀ c ∈ t, c.rate.isSome = true :=
      fun c hc => hm c (List.mem_cons_of_mem _ hc)
    by_cases hab : rged a b
    · rw [List.orderedInsert, if_pos hab]
      refine List.pairwise_cons.mpr ⟨?_, hp⟩
      intro c hc
      rcases List.mem_cons.mp hc with rfl | hct
      · exact dispOrder_of_rged ha hbS (hkey _ (List.mem_cons_self _ _)) hab
      · exact dispOrder_through ha hbS (htS c hct) hab (hbt c hct)
          (hkey c (List.mem_cons_of_mem _ hct))
    · rw [List.orderedInsert, if_neg hab]
      refine List.pairwise_cons.mpr
        ⟨?_, ih htS (fun c hc => hkey c (List.mem_cons_of_mem _ hc)) hpt⟩
      intro c hc
      rcases (List.mem_orderedInsert rged).mp hc with rfl | hct
      · exact Or.inl (rateW_lt_of_not_rged hbS ha hab)
      · exact hbt c hct

theorem dispOrder_insertionSort (l : List GroupRate)
    (hl : ∀ b ∈ l, b.rate.isSome = true)
    (hkey : l.Pairwise fun a b => keyLt a.group b.group) :
    (l.insertionSort rged).Pairwise dispOrder := by
  induction l with
  | nil => simp
  | cons a t ih =>
    obtain ⟨hat, hpt⟩ := List.pairwise_cons.mp hkey
    rw [List.insertionSort]
    exact dispOrder_orderedInsert a _
      (hl a (List.mem_cons_self _ _))
      (fun b hb => hl b (List.mem_cons_of_mem _ ((List.mem_insertionSort rged).mp hb)))
      (fun b hb => hat b ((List.mem_insertionSort rged).mp hb))
      (ih (fun b hb => hl b (List.mem_cons_of_mem _ hb)) hpt)

instance : IsTotal GVal keyLe := by
  refine ⟨fun a b => ?_⟩
  cases a <;> cases b <;> simp [keyLe]
  exact le_total _ _

instance : IsTrans GVal keyLe := by
  refine ⟨fun a b c hab hbc => ?_⟩
  cases a <;> cases b <;> cases c <;> simp [keyLe] at *
  exact le_trans hab hbc

theorem sortedKeys_pairwise_keyLt (df : List Row) :
    (sortedKeys df).Pairwise keyLt := by
  have hs : (sortedKeys df).Pairwise keyLe := List.sorted_insertionSort keyLe _
  have hn : (sortedKeys df).Pairwise (fun a b => a ≠ b) :=
    ((List.perm_insertionSort keyLe _).nodup_iff).mpr (List.nodup_dedup _)
  exact (hs.and hn).imp (fun h => ⟨h.1, h.2⟩)

theorem groupRates_base_pairwise (df : List Row) :
    ((sortedKeys df).map (groupRateOf df)).Pairwise
      (fun a b => keyLt a.group b.group) := by
  rw [List.pairwise_map]
  exact (sortedKeys_pairwise_keyLt df).imp (fun h => h)

theorem groupRates_pairwise_dispOrder (df : List Row) (rates : List GroupRate)
    (hgr : group_rates df = some rates) :
    rates.Pairwise dispOrder := by
  by_cases hdf : df = []
  · subst hdf
    simp [group_rates] at hgr
  · rw [group_rates_of_ne_nil _ hdf] at hgr
    obtain rfl := Option.some.inj hgr
    have hbp := groupRates_base_pairwise df
    refine List.pairwise_append.mpr ⟨?_, ?_, ?_⟩
    · exact dispOrder_insertionSort _ (fun b hb => (List.mem_filter.mp hb).2)
        (hbp.filter _)
    · refine List.Pairwise.imp_of_mem ?_ (hbp.filter _)
      intro a b hma hmb hk
      have hna : a.rate = none := by
        have := (List.mem_filter.mp hma).2
        simpa using this
      have hnb : b.rate = none := by
        have := (List.mem_filter.mp hmb).2
        simpa using this
      exact Or.inr ⟨hna.trans hnb.symm, hk⟩
    · intro a hma b hmb
      have haS : a.rate.isSome = true :=
        (List.mem_filter.mp ((List.mem_insertionSort rged).mp hma)).2
      have hnb : b.rate = none := by
        have := (List.mem_filter.mp hmb).2
        simpa using this
      obtain ⟨x, hx⟩ := Option.isSome_iff_exists.mp haS
      refine Or.inl ?_
      rw [rateW, rateW, hx, hnb]
      exact WithBot.bot_lt_coe x

theorem group_rates_perm_base (df : List Row) (rates : List GroupRate)
    (hgr : group_rates df = some rates) :
    rates.Perm ((sortedKeys df).map (groupRateOf df)) := by
  by_cases hdf : df = []
  · subst hdf
    simp [group_rates] at hgr
  · rw [group_rates_of_ne_nil _ hdf] at hgr
    obtain rfl := Option.some.inj hgr
    exact ((List.perm_insertionSort rged _).append_right _).trans
      (List.filter_append_perm _ _)

/-! ## Remaining helper lemmas -/

theorem rhe_sub_le (q : ℚ) : |(rhe q : ℚ) - q| ≤ 1/2 := by
  have h0 : (0:ℚ) ≤ q - ⌊q⌋ := by
    have := Int.floor_le q
    linarith
  have h1 : q - ⌊q⌋ < 1 := by
    have := Int.lt_floor_add_one q
    linarith
  unfold rhe
  by_cases hlt : q - ⌊q⌋ < 1/2
  · rw [if_pos hlt, abs_le]
    constructor <;> linarith
  · rw [if_neg hlt]
    by_cases hgt : 1/2 < q - ⌊q⌋
    · rw [if_pos hgt]
      push_cast
      rw [abs_le]
      constructor <;> linarith
    · rw [if_neg hgt]
      have heq : q - ⌊q⌋ = 1/2 := le_antisymm (not_lt.mp hgt) (not_lt.mp hlt)
      by_cases hev : (⌊q⌋ % 2 = 0)
      · rw [if_pos hev, abs_le]
        constructor <;> linarith
      · rw [if_neg hev]
        push_cast
        rw [abs_le]
        constructor <;> linarith

theorem pct_example : pct (some (453/1000)) = "45.3%" := by
  show pctRender (rhe (1000 * (453/1000))) = "45.3%"
  have h : (1000 : ℚ) * (453/1000) = 453 := by norm_num
  rw [h]
  have hf : ⌊(453:ℚ)⌋ = 453 := by
    have : ((453:ℤ):ℚ) = (453:ℚ) := by norm_num
    rw [← this, Int.floor_intCast]
  have h2 : rhe (453 : ℚ) = 453 := by
    unfold rhe
    rw [hf]
    norm_num
  rw [h2]
  decide

theorem nansum_perm {v w : List Val} (h : v.Perm w) : nansum v = nansum w :=
  (h.map Val.numOr0).sum_eq

/-- C10: `selection_rate` depends only on the multiset of outcome values and
the row count, so it is invariant under any row permutation. -/
theorem C10_selection_rate_perm_invariant (df df' : List Row) (h : df.Perm df') :
    selection_rate df = selection_rate df' := by
  have hm := h.map Row.outcome
  rw [selection_rate_eq, selection_rate_eq, astypeOk_perm hm, h.length_eq,
    nansum_perm hm]

/-! ## Claim theorems -/

/-- C1 counterexample: a nonempty dataset whose outcome column has no
numeric values at all (one missing value) nevertheless gets a *defined*
selection rate (0), contradicting the claimed "undefined iff empty or no
numeric values". -/
theorem C1_counterexample :
    dfAllNanOutcome ≠ [] ∧
    (dfAllNanOutcome.map Row.outcome).all (fun v => !v.isNumeric) = true ∧
    selection_rate dfAllNanOutcome = some 0 := by
  refine ⟨by decide, by decide, ?_⟩
  rw [selection_rate_eq]
  norm_num [astypeOk, nansum, dfAllNanOutcome, Val.coerces, Val.numOr0]

/-- C1 (amended): `selection_rate(D, O)` is undefined iff `D` is empty or the
outcome column contains a non-coercible (non-numeric, non-missing) value;
and whenever the outcome values are all missing/0/1 and `D` is nonempty, the
rate is defined and lies in `[0, 1]`. -/
theorem C1_amended_undefined_iff (df : List Row) :
    (selection_rate df = none ↔ df = [] ∨ ∃ r ∈ df, r.outcome = Val.nonnum) ∧
    ((∀ v ∈ df.map Row.outcome, v = Val.nan ∨ v = Val.num 0 ∨ v = Val.num 1) →
      df ≠ [] → ∃ x, selection_rate df = some x ∧ 0 ≤ x ∧ x ≤ 1) := by
  constructor
  · rw [selection_rate_eq]
    by_cases hok : astypeOk (df.map Row.outcome) = true
    · rw [if_pos hok]
      by_cases hl : 0 < df.length
      · rw [if_pos hl]
        constructor
        · intro h
          exact absurd h (by simp)
        · rintro (rfl | ⟨r, hr, hnn⟩)
          · simp at hl
          · have := (astypeOk_eq_true_iff _).mp hok r.outcome
              (List.mem_map_of_mem _ hr)
            exact absurd hnn this
      · rw [if_neg hl]
        have hnil : df = [] := by
          cases df with
          | nil => rfl
          | cons a t => exact absurd (by simp) hl
        constructor
        · intro _
          exact Or.inl hnil
        · intro _
          rfl
    · rw [if_neg hok]
      have hex : ∃ v ∈ df.map Row.outcome, v = Val.nonnum :=
        (astypeOk_eq_false_iff _).mp (by
          rcases h : astypeOk (df.map Row.outcome) with _ | _
          · rfl
          · exact absurd h hok)
      obtain ⟨v, hv, rfl⟩ := hex
      obtain ⟨r, hr, hre⟩ := List.mem_map.mp hv
      constructor
      · intro _
        exact Or.inr ⟨r, hr, hre⟩
      · intro _
        rfl
  · intro hall hne
    have hok : astypeOk (df.map Row.outcome) = true := by
      rw [astypeOk_eq_true_iff]
      intro v hv
      rcases hall v hv with h | h | h <;> subst h <;> simp
    have hl : 0 < df.length := List.length_pos.mpr hne
    obtain ⟨h0, h1⟩ := nansum_bounds (df.map Row.outcome) hall
    refine ⟨nansum (df.map Row.outcome) / df.length, ?_, ?_, ?_⟩
    · rw [selection_rate_eq, if_pos hok, if_pos hl]
    · exact div_nonneg h0 (by positivity)
    · rw [div_le_one (by exact_mod_cast hl)]
      rw [List.length_map] at h1
      exact h1

/-- C1 witness: the amended theorem applied to the worked example, whose
outcome values are all 0/1, yields a rate in `[0, 1]`. -/
theorem C1_amended_witness :
    selection_rate exampleDF ≠ none ∧
    0 ≤ (selection_rate exampleDF).getD 0 ∧
    (selection_rate exampleDF).getD 0 ≤ 1 := by
  obtain ⟨x, hx, h0, h1⟩ :=
    (C1_amended_undefined_iff exampleDF).2 (by decide) (by decide)
  rw [hx]
  exact ⟨by simp, by simpa using h0, by simpa using h1⟩

/-- C2 counterexample: on a 2-row dataset with one numeric outcome (1) and
one non-coercible outcome, the claimed per-value zero-contribution with
denominator 2 would give rate 1/2, but coercion raises and the code returns
the undefined sentinel instead. -/
theorem C2_counterexample :
    selection_rate dfMixedOutcome = none ∧
    selection_rate dfMixedOutcome ≠ some (1/2) := by
  have h : selection_rate dfMixedOutcome = none := by
    rw [selection_rate_eq]
    norm_num [astypeOk, dfMixedOutcome, Val.coerces]
  refine ⟨h, ?_⟩
  rw [h]
  simp

/-- C2 (amended): when the outcome column has no non-coercible value, each
missing value contributes zero to the numerator while the denominator is the
full row count; but any non-coercible value makes coercion raise and the
whole rate becomes the undefined sentinel (exceptions never propagate). -/
theorem C2_amended_rate_formula (df : List Row) :
    ((∀ r ∈ df, r.outcome ≠ Val.nonnum) → df ≠ [] →
      selection_rate df =
        some ((df.map fun r => (Row.outcome r).numOr0).sum / df.length)) ∧
    ((∃ r ∈ df, r.outcome = Val.nonnum) → selection_rate df = none) := by
  constructor
  · intro hok hne
    have hok2 : astypeOk (df.map Row.outcome) = true := by
      rw [astypeOk_eq_true_iff]
      intro v hv
      obtain ⟨r, hr, rfl⟩ := List.mem_map.mp hv
      exact hok r hr
    rw [selection_rate_eq, if_pos hok2, if_pos (List.length_pos.mpr hne)]
    unfold nansum
    rw [List.map_map]
    rfl
  · rintro ⟨r, hr, hnn⟩
    have hf : astypeOk (df.map Row.outcome) = false :=
      (astypeOk_eq_false_iff _).mpr ⟨r.outcome, List.mem_map_of_mem _ hr, hnn⟩
    rw [selection_rate_eq]
    simp [hf]

/-- C2 witness: the amended theorem applied to the all-missing column (each
missing value contributes zero, denominator is the row count) and to the
mixed column (a non-coercible value yields the sentinel). -/
theorem C2_amended_witness :
    selection_rate dfAllNanOutcome =
      some ((dfAllNanOutcome.map fun r => (Row.outcome r).numOr0).sum /
        dfAllNanOutcome.length) ∧
    selection_rate dfMixedOutcome = none :=
  ⟨(C2_amended_rate_formula dfAllNanOutcome).1 (by decide) (by decide),
   (C2_amended_rate_formula dfMixedOutcome).2 (by decide)⟩

/-- C3 counterexample: on the empty dataset every requested reference group
is absent from the grouped results, yet `disparity_table` does not fall back
and return a table — it raises, because `group_rates` hits the `TypeError`
of `DataFrame.reset_index(name="rate")` on the zero-group frame. -/
theorem C3_counterexample :
    group_rates ([] : List Row) = none ∧
    disparity_table ([] : List Row) (some (GVal.str "Z")) = none :=
  ⟨rfl, rfl⟩

/-- C3 (amended): on every dataset where `group_rates` succeeds (any
nonempty dataset), a reference group matching no grouped row makes the
reference rate silently fall back to the overall rate: `disparity_table`
returns a table without raising, and its `rate_vs_ref` column equals its
`risk_ratio_vs_overall` column row for row.  On the empty dataset the call
raises inside `group_rates` instead. -/
theorem C3_amended_nonempty_fallback (df : List Row) (ref : GVal)
    (rates : List GroupRate) (hgr : group_rates df = some rates)
    (h : ∀ g ∈ rates, pyEq g.group ref = false) :
    disparity_table df (some ref) ≠ none ∧
    ∀ tbl, disparity_table df (some ref) = some tbl →
      tbl.map DispRow.rate_vs_ref = tbl.map DispRow.risk_ratio_vs_overall := by
  have hf : rates.filter (fun g => pyEq g.group ref) = [] :=
    List.filter_eq_nil_iff.mpr (by
      intro g hg
      simp [h g hg])
  constructor
  · simp [disparity_table, hgr]
  · intro tbl htbl
    simp only [disparity_table, hgr, hf] at htbl
    obtain rfl := Option.some.inj htbl
    rw [List.map_map, List.map_map]
    exact List.map_congr_left fun g hg => rfl

/-- C3 witness: the amended theorem applied to the worked example with the
absent reference group "Z". -/
theorem C3_witness :
    disparity_table exampleDF (some (GVal.str "Z")) ≠ none ∧
    (disparity_table exampleDF (some (GVal.str "Z"))).map
        (fun tbl => tbl.map DispRow.rate_vs_ref) =
      (disparity_table exampleDF (some (GVal.str "Z"))).map
        (fun tbl => tbl.map DispRow.risk_ratio_vs_overall) := by
  have h := C3_amended_nonempty_fallback exampleDF (GVal.str "Z") _
    exampleDF_group_rates (by decide)
  refine ⟨h.1, ?_⟩
  obtain ⟨tbl, htbl⟩ := Option.ne_none_iff_exists'.mp h.1
  rw [htbl, Option.map_some', Option.map_some']
  exact congrArg some (h.2 tbl htbl)

/-- C4: the spec's worked example (10 rows, gender 6 F / 4 M, outcome 1 for
3 F rows and 1 M row): overall rate 0.4; `group_rates` is
[{F, n=6, rate=0.5}, {M, n=4, rate=0.25}] with F first; and
`disparity_table` with reference F gives the M row
`rate_diff_vs_overall = -0.15`, `risk_ratio_vs_overall = 0.625`,
`rate_vs_ref = 0.5`. -/
theorem C4_worked_example :
    selection_rate exampleDF = some (2/5) ∧
    group_rates exampleDF =
      some
      [{ group := GVal.str "F", rate := some (1/2), n := 6 },
            { group := GVal.str "M", rate := some (1/4), n := 4 }] ∧
    disparity_table exampleDF (some (GVal.str "F")) =
      some
      [{ group := GVal.str "F", rate := some (1/2), n := 6,
         rate_diff_vs_overall := some (1/10),
         risk_ratio_vs_overall := some (5/4),
         rate_vs_ref := some 1,
         reference_group := some (GVal.str "F") },
       { group := GVal.str "M", rate := some (1/4), n := 4,
         rate_diff_vs_overall := some (-(3/20)),
         risk_ratio_vs_overall := some (5/8),
         rate_vs_ref := some (1/2),
         reference_group := some (GVal.str "F") }] :=
  ⟨exampleDF_rate_overall, exampleDF_group_rates, exampleDF_disparity⟩

/-- C5 counterexample: groups B then A are encountered in that order with
equal rates 1/2, yet `group_rates` emits A before B — ties follow the
ascending group-key order of the groupby step, not the original encounter
order. -/
theorem C5_counterexample :
    (dfTiedRates.map Row.group).dedup = [GVal.str "B", GVal.str "A"] ∧
    group_rates dfTiedRates =
      some
      [{ group := GVal.str "A", rate := some (1/2), n := 2 },
            { group := GVal.str "B", rate := some (1/2), n := 2 }] :=
  ⟨by decide, dfTiedRates_group_rates⟩

/-- C5 (amended): whenever `group_rates` returns a table (any nonempty
dataset — the empty dataset raises), the table is ordered by weakly
decreasing rate with undefined rates (as `⊥`) last; and while the defined
rates are few enough for numpy's default quicksort to stay in its
insertion-sort regime (at most 15), rate ties are additionally broken by
ascending group key (the order the groupby step produced), not by encounter
order.  Beyond that regime the source's quicksort gives no tie-order
guarantee. -/
theorem C5_amended_sort_order (df : List Row) (rates : List GroupRate)
    (hgr : group_rates df = some rates) :
    rates.Pairwise (fun a b => rateW b ≤ rateW a) ∧
    ((rates.filter fun g => g.rate.isSome).length ≤ 15 →
      rates.Pairwise dispOrder) := by
  have hp := groupRates_pairwise_dispOrder df rates hgr
  constructor
  · refine hp.imp ?_
    intro a b hab
    rcases hab with hlt | ⟨heq, _⟩
    · exact le_of_lt hlt
    · exact le_of_eq (by simp [rateW, heq])
  · exact fun _ => hp

/-- C5 witness: the amended theorem applied to the worked example (two
defined-rate groups, well within the insertion-sort regime). -/
theorem C5_witness :
    [{ group := GVal.str "F", rate := some (1/2), n := 6 },
     { group := GVal.str "M", rate := some (1/4), n := 4 }].Pairwise
        (fun a b => rateW b ≤ rateW a) ∧
    [{ group := GVal.str "F", rate := some (1/2), n := 6 },
     { group := GVal.str "M", rate := some (1/4), n := 4 }].Pairwise
        dispOrder := by
  have h := C5_amended_sort_order exampleDF _ exampleDF_group_rates
  exact ⟨h.1, h.2 (by decide)⟩

/-- C6 counterexample: at the empty dataset the group sizes cannot sum to
`len(D) = 0`, because `group_rates` raises (the zero-group
`groupby.apply` yields a `DataFrame` and `reset_index(name="rate")` is a
`TypeError`) instead of returning any rows. -/
theorem C6_counterexample :
    ([] : List Row).length = 0 ∧ group_rates ([] : List Row) = none :=
  ⟨rfl, rfl⟩

/-- C6 (amended): whenever `group_rates` returns a table (any nonempty
dataset), the group sizes `n` over its rows sum to the number of rows of
the dataset — missing group keys form their own group and no row is
dropped.  On the empty dataset the call raises instead. -/
theorem C6_amended_group_sizes_sum (df : List Row) (rates : List GroupRate)
    (hgr : group_rates df = some rates) :
    (rates.map GroupRate.n).sum = df.length := by
  have h1 : (rates.map GroupRate.n).sum =
      (((sortedKeys df).map (groupRateOf df)).map GroupRate.n).sum :=
    ((group_rates_perm_base df rates hgr).map _).sum_eq
  rw [h1, List.map_map]
  have h2 : ((sortedKeys df).map (GroupRate.n ∘ groupRateOf df)).sum =
      (((df.map Row.group).dedup).map (GroupRate.n ∘ groupRateOf df)).sum :=
    ((List.perm_insertionSort keyLe _).map _).sum_eq
  rw [h2]
  have h3 : ∀ k ∈ (df.map Row.group).dedup,
      (GroupRate.n ∘ groupRateOf df) k = (df.map Row.group).count k := by
    intro k _
    simp only [Function.comp_apply, groupRateOf]
    rw [← List.countP_eq_length_filter, List.count_eq_countP, List.countP_map]
    rfl
  rw [List.map_congr_left h3]
  rw [show (fun k => (df.map Row.group).count k) =
    fun k => List.count k (df.map Row.group) from rfl]
  rw [List.sum_map_count_dedup_eq_length, List.length_map]

/-- C6 witness: the amended theorem applied to the worked example, where
the group sizes 6 and 4 sum to the 10 rows. -/
theorem C6_witness :
    ([{ group := GVal.str "F", rate := some (1/2), n := 6 },
      { group := GVal.str "M", rate := some (1/4), n := 4 }].map
        GroupRate.n).sum = exampleDF.length :=
  C6_amended_group_sizes_sum exampleDF _ exampleDF_group_rates

/-- C7 counterexample: a nonempty dataset whose single (hence highest-rate,
default-reference) group has rate 0: the positivity guard fails and its own
`rate_vs_ref` is the undefined sentinel, not 1.0. -/
theorem C7_counterexample :
    dfZeroRate ≠ [] ∧
    disparity_table dfZeroRate none =
      some
      [{ group := GVal.str "A", rate := some 0, n := 1,
         rate_diff_vs_overall := some 0,
         risk_ratio_vs_overall := none,
         rate_vs_ref := none,
         reference_group := some (GVal.str "A") }] ∧
    (none : Option ℚ) ≠ some 1 :=
  ⟨by decide, dfZeroRate_disparity, by simp⟩

/-- C7 (amended): when `group_rates` succeeds and its first (highest-rate)
row has a non-missing group key and a defined positive rate, the default
reference is that group and its own (first) output row has
`rate_vs_ref = 1`.  When the top group's key is missing, the `==` lookup
never matches, the `IndexError` is swallowed and the reference rate falls
back to the overall rate, so `rate_vs_ref` coincides with
`risk_ratio_vs_overall` on every row (and is defined whenever the overall
rate is defined and positive, rather than undefined). -/
theorem C7_amended_default_reference (df : List Row) (g : GroupRate)
    (t : List GroupRate) (hgr : group_rates df = some (g :: t)) :
    (∀ s, g.group = GVal.str s → ∀ x, g.rate = some x → 0 < x →
      ∀ tbl, disparity_table df none = some tbl →
        (tbl.map DispRow.group).head? = some g.group ∧
        (tbl.map DispRow.reference_group).head? = some (some g.group) ∧
        (tbl.map DispRow.rate_vs_ref).head? = some (some 1)) ∧
    (g.group = GVal.null →
      ∀ tbl, disparity_table df none = some tbl →
        tbl.map DispRow.rate_vs_ref = tbl.map DispRow.risk_ratio_vs_overall) := by
  constructor
  · intro s hs x hx hpos tbl htbl
    have hself : pyEq g.group g.group = true := by
      rw [hs]
      simp [pyEq]
    simp only [disparity_table, hgr, List.filter_cons, hself, if_true, hx]
      at htbl
    obtain rfl := Option.some.inj htbl
    simp only [List.map_cons, List.head?_cons]
    refine ⟨trivial, trivial, ?_⟩
    rw [if_pos hpos, hx]
    show some (Option.map (fun y => y / x) (some x)) = some (some 1)
    simp [div_self (ne_of_gt hpos)]
  · intro hnull tbl htbl
    have hf : (g :: t).filter (fun y => pyEq y.group g.group) = [] := by
      rw [hnull]
      exact List.filter_eq_nil_iff.mpr (by
        intro a ha
        simp [pyEq_null_right])
    simp only [disparity_table, hgr, hf] at htbl
    obtain rfl := Option.some.inj htbl
    rw [List.map_map, List.map_map]
    exact List.map_congr_left fun y hy => rfl

/-- C7 witness: the first clause applied to the worked example (top group F,
positive rate 1/2, own row ratio 1), and the second clause applied to a
dataset whose top group has a missing key (the fallback makes `rate_vs_ref`
equal `risk_ratio_vs_overall`, defined values 3/2 and 3/4 included). -/
theorem C7_witness :
    (disparity_table exampleDF none).map
        (fun tbl => ((tbl.map DispRow.group).head?,
          (tbl.map DispRow.reference_group).head?,
          (tbl.map DispRow.rate_vs_ref).head?)) =
      some (some (GVal.str "F"), some (some (GVal.str "F")), some (some 1)) ∧
    (disparity_table dfNullTop none).map
        (fun tbl => tbl.map DispRow.rate_vs_ref) =
      (disparity_table dfNullTop none).map
        (fun tbl => tbl.map DispRow.risk_ratio_vs_overall) := by
  have h := C7_amended_default_reference exampleDF _ _ exampleDF_group_rates
  have h1 := h.1 "F" rfl (1/2) rfl one_half_pos _ exampleDF_disparity_default
  have hN := C7_amended_default_reference dfNullTop _ _ dfNullTop_group_rates
  have h2 := hN.2 rfl _ dfNullTop_disparity
  constructor
  · rw [exampleDF_disparity_default, Option.map_some']
    exact congrArg some (by rw [h1.1, h1.2.1, h1.2.2])
  · rw [dfNullTop_disparity, Option.map_some', Option.map_some']
    exact congrArg some h2

/-- C8 counterexample: the empty dataset has an undefined overall rate, yet
`disparity_table` raises there (the `TypeError` from `group_rates`
propagates) instead of returning an all-undefined table. -/
theorem C8_counterexample :
    selection_rate ([] : List Row) = none ∧
    disparity_table ([] : List Row) none = none :=
  ⟨rfl, rfl⟩

/-- C8 (amended): on every nonempty dataset whose overall rate is the
undefined sentinel, `disparity_table` returns a table without raising, and
the sentinel flows through: every row's `rate_diff_vs_overall` and
`risk_ratio_vs_overall` are undefined.  On the empty dataset (also an
undefined overall rate) the call raises inside `group_rates` instead. -/
theorem C8_amended_undefined_overall (df : List Row) (ref : Option GVal)
    (hne : df ≠ []) (hov : selection_rate df = none) :
    disparity_table df ref ≠ none ∧
    ∀ tbl, disparity_table df ref = some tbl →
      ∀ row ∈ tbl, row.rate_diff_vs_overall = none ∧
        row.risk_ratio_vs_overall = none := by
  obtain ⟨rates, hgr⟩ : ∃ rates, group_rates df = some rates :=
    ⟨_, group_rates_of_ne_nil df hne⟩
  constructor
  · simp [disparity_table, hgr]
  · intro tbl htbl row hrow
    simp only [disparity_table, hgr, hov] at htbl
    obtain rfl := Option.some.inj htbl
    obtain ⟨y, hy, rfl⟩ := List.mem_map.mp hrow
    refine ⟨?_, rfl⟩
    cases hr : y.rate <;> rfl

/-- C8 witness: the amended theorem applied to a nonempty dataset whose
outcome column contains a non-coercible value (overall rate undefined):
the table exists and both overall-relative columns are all undefined. -/
theorem C8_witness :
    selection_rate dfUndefOverall = none ∧
    disparity_table dfUndefOverall none ≠ none ∧
    (disparity_table dfUndefOverall none).map (fun tbl =>
        tbl.map fun row => (row.rate_diff_vs_overall,
          row.risk_ratio_vs_overall)) =
      some [(none, none), (none, none)] := by
  have h := C8_amended_undefined_overall dfUndefOverall none (by decide)
    dfUndefOverall_rate
  refine ⟨dfUndefOverall_rate, h.1, ?_⟩
  rw [dfUndefOverall_disparity]
  rfl

/-- C9: `pct` maps the undefined sentinel to the placeholder "-"; it renders
0.453 as "45.3%"; and every defined rate is rendered as `pctRender n` — an
optional sign, the integer percent digits, a dot, one final digit, and "%" —
where the rendered value `n` (in tenths of a percent) differs from the exact
value `1000·q` by at most one half, i.e. a correctly rounded percentage with
exactly one decimal place. -/
theorem C9_pct_format :
    pct none = "-" ∧ pct (some (453/1000)) = "45.3%" ∧
    (∀ q : ℚ, ∃ n : ℤ, pct (some q) = pctRender n ∧
      |(n : ℚ) - 1000 * q| ≤ 1/2) ∧
    ∀ n : ℤ, ∃ d : ℕ, d < 10 ∧
      pctRender n = (if n < 0 then "-" else "") ++
        toString (n.natAbs / 10) ++ "." ++ toString d ++ "%" :=
  ⟨rfl, pct_example,
   fun q => ⟨rhe (1000 * q), rfl, rhe_sub_le _⟩,
   fun n => ⟨n.natAbs % 10, Nat.mod_lt _ (by norm_num), rfl⟩⟩

/-- C10 witness: the permutation-invariance theorem applied to a concrete
two-row swap. -/
theorem C10_witness :
    selection_rate [mkRow "A" 1, mkRow "B" 0] =
      selection_rate [mkRow "B" 0, mkRow "A" 1] :=
  C10_selection_rate_perm_invariant _ _ (List.Perm.swap _ _ _)

end Dashboard
